import Mathlib

/-!
Verification development for the concurrent multi-asset media downloader of the
TikHub Multi-Functional Downloader repository.

The definitions below are a shallow embedding of
`src/downloader/core/downloader.py` (class `VideoDownloader`) and of
`sanitize_filename` from `src/downloader/utils/utils.py`.

Modelling conventions, fixed once here:
* Python dictionaries carrying the normalized content record become the
  `ContentRecord` structure; `data.get(key)` on an optional string field is an
  `Option String`, with Python truthiness (`None` and the empty string are
  falsy) rendered by `optTruthy`; absent URL lists are the empty list, which
  has the same truthiness as a missing key.
* The filesystem is a finite map from paths to sizes (`FS`).  Directories are
  not tracked (`os.makedirs` is a no-op in the model).  File contents are
  abstracted to byte counts, which is all the source inspects
  (`os.path.getsize` for resume offsets).
* The network is a deterministic oracle `net : String -> Nat -> HttpResponse`
  giving the response to the n-th request (attempt number) for a URL.
  Transport-level exceptions (timeouts, connection resets) are outside the
  model: every request yields a status response.  Sleeps, timeout tiers,
  chunk sizes and User-Agent rotation have no observable effect in the model
  and are omitted.
* Progress callbacks are modelled as an event log: each embedded function
  returns the list of `(current, total)` pairs the Python code would pass to a
  supplied callback; `hasCb` mirrors `progress_callback is not None`.
  Callbacks are treated as non-raising observers (the spec calls them
  fire-and-forget notifications).  Time-throttled intermediate progress
  updates inside the streaming loop are time-dependent and are omitted; the
  deterministic initial and final updates are kept.  The float expression in
  the sequential mixed branch is approximated with natural division (no claim
  inspects those values).
* Thread pools complete in nondeterministic order; the model processes
  submissions in order.  No settled claim depends on completion order.
* Exact human-readable message texts are kept except that quote characters
  around field names are elided; only emptiness and membership of `errors`
  matter to the claims.
-/

/-- Decides whether the first character list is a prefix of the second. -/
def charsPre : List Char → List Char → Bool
  | [], _ => true
  | _ :: _, [] => false
  | a :: as, b :: bs => a == b && charsPre as bs

/-- Decides whether `sub` occurs as a contiguous sublist of the second list. -/
def listHasSub (sub : List Char) : List Char → Bool
  | [] => charsPre sub []
  | c :: t => charsPre sub (c :: t) || listHasSub sub t

/-- Python `sub in s` for strings. -/
def strHasSub (s sub : String) : Bool :=
  listHasSub sub.toList s.toList

/-- Python `s.endswith(suf)`. -/
def strEndsWith (s suf : String) : Bool :=
  charsPre suf.toList.reverse s.toList.reverse

/-- Python `s.lower()` for the ASCII strings handled here (URLs, MIME types,
platform names, file names). -/
def strLower (s : String) : String :=
  String.mk (s.toList.map Char.toLower)

/-- Python `s.startswith(pre)`. -/
def strStartsWith (s pre : String) : Bool :=
  charsPre pre.toList s.toList

/-- Characters removed by Python `str.strip()` (ASCII whitespace). -/
def isStripChar (c : Char) : Bool :=
  c == ' ' || c == '\t' || c == '\n' || c == '\r' || c == '\x0b' || c == '\x0c'

/-- Truthiness of an optional Python string: present and non-empty. -/
def optTruthy (o : Option String) : Bool :=
  (o.getD "") != ""

/-- Python `f"{n:03d}"` for natural numbers. -/
def pad3 (n : Nat) : String :=
  let s := toString n
  if s.length ≥ 3 then s else String.mk (List.replicate (3 - s.length) '0') ++ s

/-- POSIX `os.path.join` for a directory without trailing slash. -/
def pathJoin (dir name : String) : String :=
  dir ++ "/" ++ name

/-- Embedding of `sanitize_filename` (src/downloader/utils/utils.py).
Removes the characters banned by the regex, trims surrounding whitespace and
truncates to `maxLength` characters (a zero `maxLength` is falsy in Python and
disables truncation). -/
def sanitizeFilename (name : String) (maxLength : Nat) : String :=
  let bad : List Char := ['\\', '/', '*', '?', ':', '"', '<', '>', '|']
  let cleaned := name.toList.filter (fun c => !(bad.contains c))
  let trimmed := ((cleaned.dropWhile isStripChar).reverse.dropWhile isStripChar).reverse
  if maxLength != 0 && trimmed.length > maxLength then
    String.mk (trimmed.take maxLength)
  else String.mk trimmed

/-- Normalized content record handed to the downloader core (spec section 3;
dictionary keys used by `downloader.py`). -/
structure ContentRecord where
  id : String
  platform : Option String := none
  mediaType : Option String := none
  desc : Option String := none
  authorName : Option String := none
  videoUrls : List String := []
  imageUrls : List String := []
  audioUrls : List String := []
  musicUrls : List String := []
  musicId : Option String := none
deriving DecidableEq, Repr

/-- Downloader configuration (constructor arguments of `VideoDownloader`). -/
structure Config where
  downloadPath : String
  useDescription : Bool
  skipExisting : Bool
  maxWorkers : Nat
deriving DecidableEq, Repr

/-- Embedding of `VideoDownloader._get_content_name`. -/
def getContentName (cfg : Config) (data : ContentRecord) : String :=
  let contentId := data.id
  let platform := data.platform.getD "unknown"
  let fallback :=
    let authorPart :=
      if optTruthy data.authorName then
        "_" ++ sanitizeFilename (data.authorName.getD "") 15
      else ""
    platform ++ authorPart ++ "_" ++ contentId
  if cfg.useDescription && optTruthy data.desc then
    let safeDesc := sanitizeFilename (data.desc.getD "") 50
    if safeDesc != "" then safeDesc ++ "_" ++ contentId else fallback
  else fallback

/-- The fixed MIME table of `_determine_file_extension`, in source order. -/
def mimeMap : List (String × String) :=
  [("image/jpeg", ".jpg"), ("image/png", ".png"), ("image/heic", ".heic"),
   ("image/webp", ".webp"), ("image/gif", ".gif"), ("video/mp4", ".mp4"),
   ("video/quicktime", ".mov"), ("video/webm", ".webm"),
   ("audio/mpeg", ".mp3"), ("audio/mp4", ".m4a"), ("audio/wav", ".wav"),
   ("audio/aac", ".aac")]

/-- First MIME entry whose key occurs in the lowercased content type
(Python iterates the dict in insertion order and returns on first match). -/
def mimeLookup (ctLower : String) : Option String :=
  (mimeMap.find? (fun p => strHasSub ctLower p.1)).map (fun p => p.2)

/-- The ordered manual substring checks of `_determine_file_extension`. -/
def manualExtChecks (lowerUrl defaultExt : String) : String :=
  if strHasSub lowerUrl ".webp" then ".webp"
  else if strHasSub lowerUrl ".png" then ".png"
  else if strHasSub lowerUrl ".jpg" || strHasSub lowerUrl ".jpeg" then ".jpg"
  else if strHasSub lowerUrl ".gif" then ".gif"
  else if strHasSub lowerUrl ".mp4" then ".mp4"
  else if strHasSub lowerUrl ".mov" then ".mov"
  else if strHasSub lowerUrl ".webm" then ".webm"
  else if strHasSub lowerUrl ".mp3" then ".mp3"
  else if strHasSub lowerUrl ".m4a" then ".m4a"
  else if strHasSub lowerUrl ".wav" then ".wav"
  else if strHasSub lowerUrl ".aac" then ".aac"
  else defaultExt

/-- URL-based part of `_determine_file_extension`.  The oracle
`guessExt` stands for `mimetypes.guess_extension(mimetypes.guess_type(url)[0]
or "")`, with `none` for a falsy guess; a `.jpe` guess is skipped exactly as
in the source. -/
def urlExtension (guessExt : String → Option String) (url defaultExt : String) : String :=
  if url == "" then defaultExt
  else
    let lowerUrl := strLower url
    match guessExt url with
    | some e => if e != ".jpe" then e else manualExtChecks lowerUrl defaultExt
    | none => manualExtChecks lowerUrl defaultExt

/-- Embedding of `VideoDownloader._determine_file_extension`. -/
def determineFileExtension (guessExt : String → Option String) (url defaultExt : String)
    (contentType : Option String) : String :=
  let fromMime : Option String :=
    if optTruthy contentType then mimeLookup (strLower (contentType.getD "")) else none
  match fromMime with
  | some e => e
  | none => urlExtension guessExt url defaultExt

/-- Embedding of `VideoDownloader._detect_media_type`. -/
def detectMediaType (data : ContentRecord) : Option String :=
  let mts : List String :=
    (if !data.videoUrls.isEmpty then ["video"] else [])
      ++ (if !data.imageUrls.isEmpty then ["image"] else [])
      ++ (if !data.audioUrls.isEmpty then ["audio"] else [])
  if mts.length > 1 then some "mixed"
  else
    match mts with
    | [t] => some t
    | _ =>
      let platform := strLower (data.platform.getD "")
      if platform == "tiktok" || platform == "douyin" then some "video"
      else if platform == "xiaohongshu" then some "mixed"
      else if platform == "bilibili" && !data.musicUrls.isEmpty then some "audio"
      else none

/-- Finite-map filesystem: association list from path to size in bytes. -/
structure FS where
  entries : List (String × Nat)
deriving DecidableEq, Repr

/-- Python `os.path.exists`. -/
def FS.hasFile (fs : FS) (p : String) : Bool :=
  fs.entries.any (fun e => e.1 == p)

/-- Python `os.path.getsize`, returning 0 for a missing path. -/
def FS.size (fs : FS) (p : String) : Nat :=
  ((fs.entries.find? (fun e => e.1 == p)).map (fun e => e.2)).getD 0

/-- Python `os.remove`. -/
def FS.remove (fs : FS) (p : String) : FS :=
  ⟨fs.entries.filter (fun e => e.1 != p)⟩

/-- Writing a file of the given size (creating or truncating). -/
def FS.setSize (fs : FS) (p : String) (n : Nat) : FS :=
  ⟨(p, n) :: (fs.remove p).entries⟩

/-- Python `os.rename` and `os.replace`: move `src` onto `dst`. -/
def FS.rename (fs : FS) (src dst : String) : FS :=
  ((fs.remove src).remove dst).setSize dst (fs.size src)

/-- Response of the HTTP oracle for one streamed GET: status code, optional
content-type header and the streamed body size in bytes. -/
structure HttpResponse where
  status : Nat
  contentType : Option String := none
  body : Nat := 0
deriving DecidableEq, Repr

/-- Outcome of one `_download_media_file` call (and of its retry loop):
resulting path if successful, the filesystem afterwards, the number of HTTP
requests issued and the progress events emitted. -/
structure FetchOut where
  path : Option String
  fs : FS
  reqs : Nat
  log : List (Nat × Nat)
deriving DecidableEq, Repr

/-- Retry loop of `_download_media_file` (the `while retry_count <
max_retries` loop).  `fuel` is the number of attempts still allowed and
`retryCount` the attempts already made.  A `none` path means the loop ended by
exhaustion or by a non-retriable status; the caller performs the temp-file
cleanup in that case, exactly as the source code placed it after the loop. -/
def dmfLoop (guessExt : String → Option String) (net : String → Nat → HttpResponse)
    (url outputDir baseName : String) (hasCb : Bool) :
    Nat → Nat → String → Nat → FS → FetchOut
  | 0, _, _, _, fs => ⟨none, fs, 0, []⟩
  | fuel + 1, retryCount, extension, resumePos, fs =>
    let resp := net url retryCount
    if resp.status == 200 || resp.status == 206 then
      let detected := determineFileExtension guessExt url extension resp.contentType
      let fileName := pathJoin outputDir (baseName ++ detected)
      let tempOld := pathJoin outputDir (baseName ++ extension) ++ ".part"
      let tempNew := fileName ++ ".part"
      let fs1 :=
        if detected != extension && fs.hasFile tempOld then fs.rename tempOld tempNew
        else fs
      let fs2 := fs1.setSize tempNew (resumePos + resp.body)
      let fs3 := fs2.rename tempNew fileName
      ⟨some fileName, fs3, 1, if hasCb then [(100, 100)] else []⟩
    else if resp.status == 429 || resp.status == 504
        || (500 ≤ resp.status && resp.status < 600) then
      let r := dmfLoop guessExt net url outputDir baseName hasCb fuel
        (retryCount + 1) extension resumePos fs
      ⟨r.path, r.fs, r.reqs + 1, r.log⟩
    else
      ⟨none, fs, 1, []⟩

/-- File name `_download_media_file` computes before any network access:
base name from `_get_content_name`, optional 1-based 3-digit index, optional
suffix tag.  An empty `suffix` plays the role of Python `None`. -/
def mediaBaseName (cfg : Config) (data : ContentRecord) (index : Option Nat)
    (suffix : String) : String :=
  let b := getContentName cfg data
  let b := match index with
    | some i => b ++ "_" ++ pad3 (i + 1)
    | none => b
  if suffix != "" then b ++ suffix else b

/-- Embedding of `VideoDownloader._download_media_file`: URL validation,
skip-existing short-circuit, resume offset from a pre-existing `.part` file,
the retry loop, and temp-file cleanup on failure. -/
def downloadMediaFile (cfg : Config) (guessExt : String → Option String)
    (net : String → Nat → HttpResponse) (data : ContentRecord)
    (url outputDir extension : String) (index : Option Nat) (hasCb : Bool)
    (maxRetries : Nat) (suffix : String) (fs : FS) : FetchOut :=
  if !strStartsWith url "http" then ⟨none, fs, 0, []⟩
  else
    let baseName := mediaBaseName cfg data index suffix
    let fileName := pathJoin outputDir (baseName ++ extension)
    if cfg.skipExisting && fs.hasFile fileName then ⟨some fileName, fs, 0, []⟩
    else
      let log0 : List (Nat × Nat) := if hasCb then [(0, 100)] else []
      let tempFile := fileName ++ ".part"
      let resumePos := fs.size tempFile
      let r := dmfLoop guessExt net url outputDir baseName hasCb maxRetries 0
        extension resumePos fs
      match r.path with
      | some fn => ⟨some fn, r.fs, r.reqs, log0 ++ r.log⟩
      | none => ⟨none, r.fs.remove tempFile, r.reqs, log0 ++ r.log⟩

/-- Accumulator mirroring the `result` dictionary threaded through the
per-type strategies, together with the modelled world state. -/
structure DlAcc where
  files : List String
  errors : List String
  fs : FS
  reqs : Nat
  log : List (Nat × Nat)
deriving DecidableEq, Repr

/-- Folds one fetch outcome into the accumulator: append the produced file if
any, thread the filesystem, add up requests and append the (possibly
transformed) progress events. -/
def DlAcc.addFetch (a : DlAcc) (o : FetchOut) (mapLog : List (Nat × Nat) → List (Nat × Nat)) : DlAcc :=
  { a with
    files := a.files ++ (match o.path with | some p => [p] | none => [])
    fs := o.fs
    reqs := a.reqs + o.reqs
    log := a.log ++ mapLog o.log }

/-- Appends one progress event when a callback is present. -/
def DlAcc.push (a : DlAcc) (hasCb : Bool) (e : Nat × Nat) : DlAcc :=
  if hasCb then { a with log := a.log ++ [e] } else a

/-- Embedding of `VideoDownloader._parallel_process_videos`.  Worker
completions are modelled in submission order; each completion emits the
`min(completed*100//total, 99)` update of `update_progress`. -/
def parallelProcessVideos (cfg : Config) (guessExt : String → Option String)
    (net : String → Nat → HttpResponse) (data : ContentRecord)
    (videoUrls : List String) (outputDir : String) (hasCb : Bool)
    (maxRetries : Nat) (acc : DlAcc) : DlAcc :=
  let valid := videoUrls.filter (fun u => strStartsWith u "http")
  if valid.isEmpty then acc
  else
    let total := valid.length
    let acc := acc.push hasCb (0, 100)
    let acc := valid.enum.foldl (fun (a : DlAcc) (iu : Nat × String) =>
      let o := downloadMediaFile cfg guessExt net data iu.2 outputDir ".mp4"
        (if total > 1 then some iu.1 else none) false maxRetries "" a.fs
      (a.addFetch o (fun _ => [])).push hasCb (min ((iu.1 + 1) * 100 / total) 99, 100)) acc
    acc.push hasCb (100, 100)

/-- Embedding of `VideoDownloader._process_video`. -/
def processVideo (cfg : Config) (guessExt : String → Option String)
    (net : String → Nat → HttpResponse) (data : ContentRecord)
    (outputDir : String) (hasCb : Bool) (maxRetries : Nat) (acc : DlAcc) : DlAcc :=
  if data.videoUrls.isEmpty then
    { acc with errors := acc.errors ++ ["No video URLs found for video content"] }
  else if data.videoUrls.length > 1 && cfg.maxWorkers > 1 then
    parallelProcessVideos cfg guessExt net data data.videoUrls outputDir hasCb maxRetries acc
  else
    data.videoUrls.enum.foldl (fun (a : DlAcc) (iu : Nat × String) =>
      if !strStartsWith iu.2 "http" then a
      else
        let o := downloadMediaFile cfg guessExt net data iu.2 outputDir ".mp4"
          (if data.videoUrls.length > 1 then some iu.1 else none) hasCb maxRetries "" a.fs
        a.addFetch o id) acc

/-- Embedding of `VideoDownloader._parallel_process_audio`. -/
def parallelProcessAudio (cfg : Config) (guessExt : String → Option String)
    (net : String → Nat → HttpResponse) (data : ContentRecord)
    (audioUrls : List String) (outputDir : String) (hasCb : Bool)
    (maxRetries : Nat) (acc : DlAcc) : DlAcc :=
  let valid := audioUrls.filter (fun u => strStartsWith u "http")
  if valid.isEmpty then acc
  else
    let total := valid.length
    let acc := acc.push hasCb (0, 100)
    let acc := valid.enum.foldl (fun (a : DlAcc) (iu : Nat × String) =>
      let ext := determineFileExtension guessExt iu.2 ".mp3" none
      let o := downloadMediaFile cfg guessExt net data iu.2 outputDir ext
        (if total > 1 then some iu.1 else none) false maxRetries "" a.fs
      (a.addFetch o (fun _ => [])).push hasCb (min ((iu.1 + 1) * 100 / total) 99, 100)) acc
    acc.push hasCb (100, 100)

/-- Embedding of `VideoDownloader._process_audio`. -/
def processAudio (cfg : Config) (guessExt : String → Option String)
    (net : String → Nat → HttpResponse) (data : ContentRecord)
    (outputDir : String) (hasCb : Bool) (maxRetries : Nat) (acc : DlAcc) : DlAcc :=
  if data.audioUrls.isEmpty then
    { acc with errors := acc.errors ++ ["No audio URLs found for audio content"] }
  else if data.audioUrls.length > 1 && cfg.maxWorkers > 1 then
    parallelProcessAudio cfg guessExt net data data.audioUrls outputDir hasCb maxRetries acc
  else
    data.audioUrls.enum.foldl (fun (a : DlAcc) (iu : Nat × String) =>
      if !strStartsWith iu.2 "http" then a
      else
        let ext := determineFileExtension guessExt iu.2 ".mp3" none
        let o := downloadMediaFile cfg guessExt net data iu.2 outputDir ext
          (if data.audioUrls.length > 1 then some iu.1 else none) hasCb maxRetries "" a.fs
        a.addFetch o id) acc

/-- Embedding of `VideoDownloader._get_image_files`: names of files that sit
directly in `dir` and carry an image extension.  The numeric sort of the
source only affects presentation order, which no claim observes, and is
omitted. -/
def getImageFiles (fs : FS) (dir : String) : List String :=
  (fs.entries.filterMap (fun e =>
    if strStartsWith e.1 (dir ++ "/") then
      some (String.mk (e.1.toList.drop (dir ++ "/").toList.length))
    else none)).filter (fun n =>
      let l := strLower n
      strEndsWith l ".jpg" || strEndsWith l ".jpeg" || strEndsWith l ".png"
        || strEndsWith l ".webp" || strEndsWith l ".gif")

/-- Embedding of `VideoDownloader._create_album_preview`.  The rendered HTML
text is abstracted to a unit-sized file; only the produced path and the
no-image short-circuit are observable to the claims. -/
def createAlbumPreview (fs : FS) (albumDir : String) : Option String × FS :=
  if (getImageFiles fs albumDir).isEmpty then (none, fs)
  else
    let p := pathJoin albumDir "preview.html"
    (some p, fs.setSize p 1)

/-- Embedding of `VideoDownloader._parallel_process_images`.  Batching for
more than 100 images only inserts pauses between thread pools and is not
observable here; worker completions are modelled in submission order, which
also realizes the index sort the source applies to its results.  Per-item
errors are appended only for worker exceptions, which cannot occur in the
model (fetch failures return `None` without raising). -/
def parallelProcessImages (cfg : Config) (guessExt : String → Option String)
    (net : String → Nat → HttpResponse) (data : ContentRecord)
    (imageUrls : List String) (outputDir : String) (hasCb : Bool)
    (maxRetries : Nat) (acc : DlAcc) : DlAcc :=
  let valid := imageUrls.filter (fun u => strStartsWith u "http")
  if valid.isEmpty then acc
  else
    let total := valid.length
    let acc := acc.push hasCb (0, 100)
    let acc := valid.enum.foldl (fun (a : DlAcc) (iu : Nat × String) =>
      let ext := determineFileExtension guessExt iu.2 ".jpg" none
      let o := downloadMediaFile cfg guessExt net data iu.2 outputDir ext
        (some iu.1) false maxRetries "" a.fs
      (a.addFetch o (fun _ => [])).push hasCb (min ((iu.1 + 1) * 100 / total) 99, 100)) acc
    acc.push hasCb (100, 100)

/-- Embedding of `VideoDownloader._process_image`. -/
def processImage (cfg : Config) (guessExt : String → Option String)
    (net : String → Nat → HttpResponse) (data : ContentRecord)
    (outputDir : String) (hasCb : Bool) (maxRetries : Nat) (acc : DlAcc) : DlAcc :=
  if data.imageUrls.isEmpty then
    { acc with errors := acc.errors ++ ["No image URLs found for image content"] }
  else if data.imageUrls.length > 1 then
    let albumDir := pathJoin outputDir (getContentName cfg data)
    let acc := parallelProcessImages cfg guessExt net data data.imageUrls albumDir
      hasCb maxRetries acc
    if !acc.files.isEmpty then
      match createAlbumPreview acc.fs albumDir with
      | (some p, fs) => { acc with fs := fs, files := acc.files ++ [p] }
      | (none, fs) => { acc with fs := fs }
    else acc
  else
    let url := data.imageUrls.headD ""
    if !strStartsWith url "http" then
      { acc with errors := acc.errors ++ ["Invalid image URL: " ++ url] }
    else
      let ext := determineFileExtension guessExt url ".jpg" none
      let o := downloadMediaFile cfg guessExt net data url outputDir ext none
        hasCb maxRetries "" acc.fs
      acc.addFetch o id

/-- Gate of `_create_mixed_content_index`: `_group_files_by_type` yields a
non-empty grouping iff some listed path lies under the directory, still
exists, and is not an HTML file (every such file falls into some category,
`other` being the catch-all). -/
def anyIndexedFile (fs : FS) (dir : String) (filePaths : List String) : Bool :=
  filePaths.any (fun p =>
    strHasSub p dir && fs.hasFile p && !(strEndsWith (strLower p) ".html"))

/-- Embedding of `VideoDownloader._create_mixed_content_index`.  As with the
album preview, the rendered HTML is abstracted to a unit-sized file; the
grouping by extension only shapes HTML sections and is summarized by its
emptiness gate. -/
def createMixedContentIndex (fs : FS) (mixedDir : String)
    (filePaths : List String) : Option String × FS :=
  if anyIndexedFile fs mixedDir filePaths then
    let p := pathJoin mixedDir "index.html"
    (some p, fs.setSize p 1)
  else (none, fs)

/-- Task list built by `_parallel_process_mixed`: `(url, index, extension,
suffix)` for every valid URL of every category, music gated on `music_id`. -/
def mixedTasks (guessExt : String → Option String) (data : ContentRecord) :
    List (String × Nat × String × String) :=
  (data.videoUrls.enum.filterMap (fun iu =>
    if strStartsWith iu.2 "http" then some (iu.2, iu.1, ".mp4", "_video") else none))
  ++ (data.imageUrls.enum.filterMap (fun iu =>
    if strStartsWith iu.2 "http" then
      some (iu.2, iu.1, determineFileExtension guessExt iu.2 ".jpg" none, "_image")
    else none))
  ++ (data.audioUrls.enum.filterMap (fun iu =>
    if strStartsWith iu.2 "http" then
      some (iu.2, iu.1, determineFileExtension guessExt iu.2 ".mp3" none, "_audio")
    else none))
  ++ (if optTruthy data.musicId then
    data.musicUrls.enum.filterMap (fun iu =>
      if strStartsWith iu.2 "http" then
        some (iu.2, iu.1, determineFileExtension guessExt iu.2 ".mp3" none, "_music")
      else none)
    else [])

/-- Embedding of `VideoDownloader._parallel_process_mixed`: one pool over the
tasks of all categories. -/
def parallelProcessMixed (cfg : Config) (guessExt : String → Option String)
    (net : String → Nat → HttpResponse) (data : ContentRecord)
    (mixedDir : String) (hasCb : Bool) (maxRetries : Nat) (acc : DlAcc) : DlAcc :=
  let tasks := mixedTasks guessExt data
  if tasks.isEmpty then acc
  else
    let total := tasks.length
    let acc := acc.push hasCb (0, 100)
    let acc := tasks.enum.foldl (fun (a : DlAcc) (kt : Nat × (String × Nat × String × String)) =>
      let o := downloadMediaFile cfg guessExt net data kt.2.1 mixedDir kt.2.2.2.1
        (some kt.2.2.1) false maxRetries kt.2.2.2.2 a.fs
      (a.addFetch o (fun _ => [])).push hasCb (min ((kt.1 + 1) * 100 / total) 99, 100)) acc
    acc.push hasCb (100, 100)

/-- Embedding of `VideoDownloader._process_mixed`.  The sequential branch is
translated exactly as written in the source: only the video loop exists there,
the image, audio and music passes being an omitted `similar pattern` comment.
The wrapped `update_mixed_progress` callback is modelled by transforming the
raw fetch progress events with the overall-progress formula (natural division
approximating the float arithmetic). -/
def processMixed (cfg : Config) (guessExt : String → Option String)
    (net : String → Nat → HttpResponse) (data : ContentRecord)
    (outputDir : String) (hasCb : Bool) (maxRetries : Nat) (acc : DlAcc) : DlAcc :=
  let mixedDir := pathJoin outputDir (getContentName cfg data)
  let totalItems := data.videoUrls.length + data.imageUrls.length
    + data.audioUrls.length
    + (if optTruthy data.musicId then data.musicUrls.length else 0)
  if totalItems == 0 then
    { acc with errors := acc.errors ++ ["No media URLs found in mixed content"] }
  else
    let acc1 :=
      if totalItems > 1 && cfg.maxWorkers > 1 then
        parallelProcessMixed cfg guessExt net data mixedDir hasCb maxRetries acc
      else
        (data.videoUrls.enum.foldl (fun (st : DlAcc × Nat) (iu : Nat × String) =>
          if !strStartsWith iu.2 "http" then (st.1, st.2 + 1)
          else
            let o := downloadMediaFile cfg guessExt net data iu.2 mixedDir ".mp4"
              (if data.videoUrls.length > 1 then some iu.1 else none) hasCb
              maxRetries "_video" st.1.fs
            (st.1.addFetch o (fun l => l.map (fun pt =>
              (min (st.2 * 100 / totalItems + pt.1 * 100 / (pt.2 * totalItems)) 99, 100))),
             st.2 + 1)) (acc, 0)).1
    if !acc1.files.isEmpty then
      match createMixedContentIndex acc1.fs mixedDir acc1.files with
      | (some p, fs) => { acc1 with fs := fs, files := acc1.files ++ [p] }
      | (none, fs) => { acc1 with fs := fs }
    else acc1

/-- Embedding of `VideoDownloader._process_content`: dispatch on the media
type string, raising (as an `Except.error`) on an unsupported type. -/
def processContent (cfg : Config) (guessExt : String → Option String)
    (net : String → Nat → HttpResponse) (data : ContentRecord)
    (outputDir : String) (hasCb : Bool) (maxRetries : Nat) (acc : DlAcc) :
    Except String DlAcc :=
  match data.mediaType with
  | some "video" => .ok (processVideo cfg guessExt net data outputDir hasCb maxRetries acc)
  | some "image" => .ok (processImage cfg guessExt net data outputDir hasCb maxRetries acc)
  | some "audio" => .ok (processAudio cfg guessExt net data outputDir hasCb maxRetries acc)
  | some "mixed" => .ok (processMixed cfg guessExt net data outputDir hasCb maxRetries acc)
  | some other => .error ("Unsupported media type: " ++ other)
  | none => .error "Unsupported media type: "

/-- Result dictionary of the top-level entry points. -/
structure BatchResult where
  success : Bool
  files : List String
  errors : List String
deriving DecidableEq, Repr

/-- Media-type defaulting step of `main_downloader`: keep a present type,
otherwise infer one with `_detect_media_type`; `none` means the `ValueError`
is raised. -/
def resolveMediaType (data : ContentRecord) : Option ContentRecord :=
  match data.mediaType with
  | some _ => some data
  | none =>
    match detectMediaType data with
    | some t => some { data with mediaType := some t }
    | none => none


/-- Media type that governs dispatch after defaulting: the supplied one, else
the inferred one. -/
def effectiveMediaType (data : ContentRecord) : Option String :=
  match data.mediaType with
  | some t => some t
  | none => detectMediaType data

/-- Everything one `main_downloader` call returns or affects: the result
dictionary, the (possibly media-type-defaulted) record, the filesystem, the
number of HTTP requests issued and the progress events delivered to the
caller-supplied callback. -/
structure MainOut where
  res : BatchResult
  record : ContentRecord
  fs : FS
  reqs : Nat
  log : List (Nat × Nat)
deriving DecidableEq, Repr

/-- Body of the `try` block of `main_downloader` up to the success-flag
assignment: validation, media-type defaulting, optional author subdirectory,
and the `_process_content` dispatch.  An `Except.error` is a raised
`ValueError` caught by the surrounding handler. -/
def mainCore (cfg : Config) (guessExt : String → Option String)
    (net : String → Nat → HttpResponse) (data : ContentRecord)
    (outputDirOpt : Option String) (hasCb : Bool) (maxRetries : Nat)
    (fs : FS) : Except String DlAcc :=
  let outputDir :=
    match outputDirOpt with
    | some d => if d == "" then cfg.downloadPath else d
    | none => cfg.downloadPath
  if data.id == "" then .error "Missing required field: id"
  else
    match resolveMediaType data with
    | none =>
      .error "Missing required field: media_type and could not determine from data"
    | some data1 =>
      let outputDir :=
        if cfg.useDescription && optTruthy data1.authorName then
          pathJoin outputDir (sanitizeFilename (data1.authorName.getD "") 50)
        else outputDir
      processContent cfg guessExt net data1 outputDir hasCb maxRetries
        ⟨[], [], fs, 0, []⟩

/-- The record as left behind by `main_downloader`: the in-place dictionary
update `data[media_type] = ...` happens only after the `id` validation and
when the field was absent and inferable. -/
def mainRecord (data : ContentRecord) : ContentRecord :=
  if data.id == "" then data else (resolveMediaType data).getD data

/-- Embedding of `VideoDownloader.main_downloader`. -/
def mainDownloader (cfg : Config) (guessExt : String → Option String)
    (net : String → Nat → HttpResponse) (data : ContentRecord)
    (outputDirOpt : Option String) (hasCb : Bool) (maxRetries : Nat)
    (fs : FS) : MainOut :=
  match mainCore cfg guessExt net data outputDirOpt hasCb maxRetries fs with
  | .error e =>
    ⟨⟨false, [], ["Error in main_downloader: " ++ e]⟩, mainRecord data, fs, 0, []⟩
  | .ok acc =>
    ⟨⟨!acc.files.isEmpty, acc.files, acc.errors⟩, mainRecord data, acc.fs, acc.reqs,
      acc.log ++ (if hasCb then [(100, 100)] else [])⟩

/-- Result of one `parallel_download` call. -/
structure ParOut where
  res : BatchResult
  fs : FS
  reqs : Nat
  log : List (Nat × Nat)
deriving DecidableEq, Repr

/-- Embedding of `VideoDownloader.parallel_download`.  Worker completions are
modelled in submission order; each inner `main_downloader` call receives the
no-op per-item callback of the source (observationally no callback) and the
fixed default of 3 retries. -/
def parallelDownload (cfg : Config) (guessExt : String → Option String)
    (net : String → Nat → HttpResponse) (items : List ContentRecord)
    (hasCb : Bool) (fs : FS) : ParOut :=
  if items.isEmpty then ⟨⟨false, [], []⟩, fs, 0, []⟩
  else
    let total := items.length
    let st := items.enum.foldl (fun (a : DlAcc) (ki : Nat × ContentRecord) =>
      let m := mainDownloader cfg guessExt net ki.2 none false 3 a.fs
      ({ a with
          files := a.files ++ m.res.files
          errors := a.errors ++ m.res.errors
          fs := m.fs
          reqs := a.reqs + m.reqs }).push hasCb (ki.1 + 1, total))
      (⟨[], [], fs, 0, []⟩ : DlAcc)
    ⟨⟨!st.files.isEmpty, st.files, st.errors⟩, st.fs, st.reqs, st.log⟩

/-- Number of non-empty lists among video, image and audio URLs: the length of
the `media_types` list `_detect_media_type` accumulates. -/
def cntNonEmpty (data : ContentRecord) : Nat :=
  (if data.videoUrls.isEmpty then 0 else 1)
    + (if data.imageUrls.isEmpty then 0 else 1)
    + (if data.audioUrls.isEmpty then 0 else 1)

/-- Sample configuration used by concrete witnesses and counterexamples. -/
def sampleCfg : Config := ⟨"/out", false, true, 4⟩

/-- Extension-guess oracle with no guess for any URL. -/
def guessNone : String → Option String := fun _ => none

/-- Server answering every request with 200 and a JPEG content type. -/
def netJpegOk : String → Nat → HttpResponse := fun _ _ => ⟨200, some "image/jpeg", 4⟩

/-- Server answering every request with 200 and no content-type header. -/
def netPlainOk : String → Nat → HttpResponse := fun _ _ => ⟨200, none, 5⟩

/-- Server answering every request with HTTP 503. -/
def netAlways503 : String → Nat → HttpResponse := fun _ _ => ⟨503, none, 0⟩

/-- Server answering every request with 200 and a WebM content type. -/
def netWebmOk : String → Nat → HttpResponse := fun _ _ => ⟨200, some "video/webm", 10⟩

/-- Initially empty filesystem. -/
def emptyFS : FS := ⟨[]⟩

/-- Single-video record of the spec example scenario. -/
def recVideoOne : ContentRecord :=
  { id := "v1", platform := some "tiktok", mediaType := some "video",
    videoUrls := ["http://h/v"] }

/-- Mixed record with exactly one (valid, downloadable) image URL. -/
def recMixedOneImage : ContentRecord :=
  { id := "m1", platform := some "xiaohongshu", mediaType := some "mixed",
    imageUrls := ["http://a/p.jpg"] }

/-- Record failing the `id` validation. -/
def recNoId : ContentRecord := { id := "" }

theorem FS.hasFile_setSize_self (fs : FS) (p : String) (n : Nat) :
    (fs.setSize p n).hasFile p = true := by
  simp [FS.setSize, FS.hasFile]

theorem FS.hasFile_remove_self (fs : FS) (p : String) :
    (fs.remove p).hasFile p = false := by
  simp [FS.remove, FS.hasFile, List.any_eq_true, List.mem_filter]

theorem FS.hasFile_remove_false (fs : FS) (p q : String) (h : fs.hasFile q = false) :
    (fs.remove p).hasFile q = false := by
  simp only [FS.remove, FS.hasFile, List.any_eq_false, List.mem_filter] at h ⊢
  intro x hx
  exact h x hx.1

theorem getLast_append_single {α : Type} (l : List α) (e : α) :
    (l ++ [e]).getLast? = some e :=
  List.getLast?_concat _

theorem resolveMediaType_fields (data d : ContentRecord)
    (h : resolveMediaType data = some d) :
    d.id = data.id ∧ d.platform = data.platform ∧ d.desc = data.desc
      ∧ d.authorName = data.authorName ∧ d.videoUrls = data.videoUrls
      ∧ d.imageUrls = data.imageUrls ∧ d.audioUrls = data.audioUrls
      ∧ d.musicUrls = data.musicUrls ∧ d.musicId = data.musicId := by
  unfold resolveMediaType at h
  cases hm : data.mediaType with
  | some t =>
    rw [hm] at h
    cases h
    simp
  | none =>
    rw [hm] at h
    cases hd : detectMediaType data with
    | some t => rw [hd] at h; cases h; simp
    | none => rw [hd] at h; cases h

/-- The record component of a `main_downloader` call is `mainRecord` on every
branch. -/
theorem mainDownloader_record (cfg : Config) (g : String → Option String)
    (net : String → Nat → HttpResponse) (data : ContentRecord)
    (odir : Option String) (hasCb : Bool) (mr : Nat) (fs : FS) :
    (mainDownloader cfg g net data odir hasCb mr fs).record = mainRecord data := by
  unfold mainDownloader
  cases h : mainCore cfg g net data odir hasCb mr fs <;> rfl

/-- C1: for every call to the top-level downloader (`main_downloader`) and to
`parallel_download`, the returned result has `success = true` iff its `files`
list is non-empty, regardless of how many individual assets failed: every
error path returns `success = false` with empty `files`, and every completed
path computes `success` from emptiness of `files`. -/
theorem c1_success_iff_files_nonempty (cfg : Config) (g : String → Option String)
    (net : String → Nat → HttpResponse) (data : ContentRecord)
    (odir : Option String) (hasCb : Bool) (mr : Nat)
    (items : List ContentRecord) (fs : FS) :
    (mainDownloader cfg g net data odir hasCb mr fs).res.success
      = !(mainDownloader cfg g net data odir hasCb mr fs).res.files.isEmpty
    ∧ (parallelDownload cfg g net items hasCb fs).res.success
      = !(parallelDownload cfg g net items hasCb fs).res.files.isEmpty := by
  constructor
  · unfold mainDownloader
    cases h : mainCore cfg g net data odir hasCb mr fs <;> simp
  · unfold parallelDownload
    split
    · rfl
    · rfl

/-- C10: `parallel_download` on an empty items list returns exactly
`success = false`, empty `files`, empty `errors`, performs no requests,
changes nothing on disk and never invokes the progress callback. -/
theorem c10_parallel_download_empty (cfg : Config) (g : String → Option String)
    (net : String → Nat → HttpResponse) (hasCb : Bool) (fs : FS) :
    parallelDownload cfg g net [] hasCb fs = ⟨⟨false, [], []⟩, fs, 0, []⟩ := rfl

/-- C2 failing-input evaluation: a mixed-type record with exactly one valid
image URL makes `_process_mixed` take its sequential branch
(`total_items <= 1`), and that branch processes only the video category — the
image is never submitted, so against a server that would deliver it the call
returns no files, no errors and performs zero HTTP requests.  This
contradicts the claim that both branches submit every valid URL of all four
categories; the source marks the missing passes with a
`similar pattern` comment, so the sequential branch contradicts the code
itself (a latent bug the spec also flags). -/
theorem c2_mixed_sequential_drops_nonvideo :
    mainDownloader sampleCfg guessNone netJpegOk recMixedOneImage none false 3 emptyFS
      = ⟨⟨false, [], []⟩, recMixedOneImage, emptyFS, 0, []⟩ := by rfl

/-- C9: `main_downloader` never mutates the content record except for
setting `media_type` when it was absent: all other fields are unchanged in
the record the call leaves behind, and a present `media_type` is kept. -/
theorem c9_record_immutable (cfg : Config) (g : String → Option String)
    (net : String → Nat → HttpResponse) (data : ContentRecord)
    (odir : Option String) (hasCb : Bool) (mr : Nat) (fs : FS) :
    ((mainDownloader cfg g net data odir hasCb mr fs).record.id = data.id
      ∧ (mainDownloader cfg g net data odir hasCb mr fs).record.platform = data.platform
      ∧ (mainDownloader cfg g net data odir hasCb mr fs).record.desc = data.desc
      ∧ (mainDownloader cfg g net data odir hasCb mr fs).record.authorName = data.authorName
      ∧ (mainDownloader cfg g net data odir hasCb mr fs).record.videoUrls = data.videoUrls
      ∧ (mainDownloader cfg g net data odir hasCb mr fs).record.imageUrls = data.imageUrls
      ∧ (mainDownloader cfg g net data odir hasCb mr fs).record.audioUrls = data.audioUrls
      ∧ (mainDownloader cfg g net data odir hasCb mr fs).record.musicUrls = data.musicUrls
      ∧ (mainDownloader cfg g net data odir hasCb mr fs).record.musicId = data.musicId)
    ∧ (∀ t, data.mediaType = some t →
        (mainDownloader cfg g net data odir hasCb mr fs).record.mediaType = some t) := by
  rw [mainDownloader_record]
  unfold mainRecord
  by_cases hid : data.id == ""
  · simp [hid]
  · simp only [hid, Bool.false_eq_true, if_false]
    cases hr : resolveMediaType data with
    | none => simp
    | some d =>
      simp only [Option.getD_some]
      obtain ⟨h1, h2, h3, h4, h5, h6, h7, h8, h9⟩ := resolveMediaType_fields data d hr
      refine ⟨⟨h1, h2, h3, h4, h5, h6, h7, h8, h9⟩, ?_⟩
      intro t ht
      unfold resolveMediaType at hr
      rw [ht] at hr
      cases hr
      exact ht

/-- C5: the naming engine is deterministic (same record, same output), and
two records differing only in `author_name` receive the same name whenever
description naming is enabled and the sanitized description is non-empty —
the contrapositive of the claim that outputs differ only when naming is
disabled or the sanitized description is empty. -/
theorem c5_naming_determinism (cfg : Config) (r : ContentRecord) (a : Option String)
    (hd : cfg.useDescription = true)
    (hs : sanitizeFilename (r.desc.getD "") 50 ≠ "") :
    getContentName cfg r = getContentName cfg r
    ∧ getContentName cfg { r with authorName := a } = getContentName cfg r := by
  refine ⟨rfl, ?_⟩
  have hdesc : (r.desc.getD "" != "") = true := by
    rw [bne_iff_ne]
    intro h0
    apply hs
    rw [h0]
    rfl
  have hsb : (sanitizeFilename (r.desc.getD "") 50 != "") = true := by
    simp [bne_iff_ne, hs]
  unfold getContentName
  simp [optTruthy, hd, hdesc, hsb]

/-- C5 witness: with description naming on and description `hello`, changing
the author from `alice` to `bob` leaves the name unchanged. -/
theorem c5_naming_determinism_witness :
    (⟨"/out", true, true, 4⟩ : Config).useDescription = true ∧
    sanitizeFilename ((some "hello" : Option String).getD "") 50 ≠ "" ∧
    getContentName ⟨"/out", true, true, 4⟩
        { id := "v1", desc := some "hello", authorName := some "alice" }
      = getContentName ⟨"/out", true, true, 4⟩
        { id := "v1", desc := some "hello", authorName := some "bob" } := by
  refine ⟨rfl, by decide, ?_⟩
  have h := c5_naming_determinism ⟨"/out", true, true, 4⟩
    { id := "v1", desc := some "hello", authorName := some "bob" }
    (some "alice") rfl (by decide)
  exact h.2

/-- A non-empty string never occurs inside the empty string. -/
theorem strHasSub_empty (sub : String) (h : sub ≠ "") : strHasSub "" sub = false := by
  cases sub with
  | mk l =>
    cases l with
    | nil => exact absurd rfl h
    | cons c cs => rfl

/-- A `find?` over a key-containment predicate returns the unique matching
entry when no other key of the list is contained. -/
theorem findUniqAux (ct m e : String) :
    ∀ (l : List (String × String)), (m, e) ∈ l →
      strHasSub ct m = true →
      (∀ p ∈ l, p.1 ≠ m → strHasSub ct p.1 = false) →
      (∀ p ∈ l, p.1 = m → p.2 = e) →
      l.find? (fun p => strHasSub ct p.1) = some (m, e) := by
  intro l
  induction l with
  | nil => intro h; exact absurd h (List.not_mem_nil _)
  | cons q t ih =>
    intro hmem hc hu hf
    by_cases hq : q.1 = m
    · have he : q.2 = e := hf q (List.mem_cons_self _ _) hq
      have hqe : q = (m, e) := by
        cases q
        simp_all
      rw [List.find?_cons_of_pos]
      · rw [hqe]
      · rw [hq]; exact hc
    · have hpq : strHasSub ct q.1 = false := hu q (List.mem_cons_self _ _) hq
      rw [List.find?_cons_of_neg]
      · apply ih
        · rcases List.mem_cons.mp hmem with h | h
          · exact absurd (by rw [← h]) hq
          · exact h
        · exact hc
        · intro p hp hne; exact hu p (List.mem_cons_of_mem _ hp) hne
        · intro p hp hpe; exact hf p (List.mem_cons_of_mem _ hp) hpe
      · simp [hpq]

set_option maxHeartbeats 2000000 in
/-- The MIME table maps equal keys to equal extensions. -/
theorem mimeMap_functional : ∀ p ∈ mimeMap, ∀ q ∈ mimeMap, p.1 = q.1 → p.2 = q.2 := by
  intro p hp q hq
  simp only [mimeMap, List.mem_cons, List.not_mem_nil, or_false] at hp hq
  rcases hp with rfl | rfl | rfl | rfl | rfl | rfl | rfl | rfl | rfl | rfl | rfl | rfl <;>
    rcases hq with rfl | rfl | rfl | rfl | rfl | rfl | rfl | rfl | rfl | rfl | rfl | rfl <;>
    decide

/-- Every key of the MIME table is non-empty. -/
theorem mimeMap_keys_nonempty : ∀ p ∈ mimeMap, p.1 ≠ "" := by
  intro p hp
  simp only [mimeMap, List.mem_cons, List.not_mem_nil, or_false] at hp
  rcases hp with rfl | rfl | rfl | rfl | rfl | rfl | rfl | rfl | rfl | rfl | rfl | rfl <;>
    decide

set_option maxHeartbeats 1600000 in
/-- The manual URL substring checks return either the fallback or one of the
eleven fixed extensions. -/
theorem manualExtChecks_cases (l fb : String) :
    manualExtChecks l fb = fb
    ∨ manualExtChecks l fb
        ∈ ([".webp", ".png", ".jpg", ".gif", ".mp4", ".mov", ".webm",
            ".mp3", ".m4a", ".wav", ".aac"] : List String) := by
  unfold manualExtChecks
  repeat' split
  all_goals try exact Or.inl rfl
  all_goals refine Or.inr ?_
  all_goals decide

/-- C4: for every content-type string containing exactly one MIME key of the
fixed table, `_determine_file_extension` returns exactly the mapped
extension, overriding any URL-derived inference (arbitrary guess oracle and
URL) and any conflicting fallback; and for every input it returns some
extension — namely the fallback, a table extension, the URL guess, or one of
the fixed substring-check extensions. -/
theorem c4_extension_resolver :
    (∀ (g : String → Option String) (url fb ct m e : String),
      (m, e) ∈ mimeMap →
      strHasSub (strLower ct) m = true →
      (∀ p ∈ mimeMap, p.1 ≠ m → strHasSub (strLower ct) p.1 = false) →
      determineFileExtension g url fb (some ct) = e)
    ∧ (∀ (g : String → Option String) (url fb : String) (cto : Option String),
        determineFileExtension g url fb cto = fb
        ∨ (∃ p ∈ mimeMap, determineFileExtension g url fb cto = p.2)
        ∨ (∃ u, g url = some u ∧ determineFileExtension g url fb cto = u)
        ∨ determineFileExtension g url fb cto
            ∈ ([".webp", ".png", ".jpg", ".gif", ".mp4", ".mov", ".webm",
                ".mp3", ".m4a", ".wav", ".aac"] : List String)) := by
  constructor
  · intro g url fb ct m e hm hc hu
    have hmne : m ≠ "" := mimeMap_keys_nonempty (m, e) hm
    have hct : optTruthy (some ct) = true := by
      simp only [optTruthy, Option.getD_some, bne_iff_ne, ne_eq]
      intro h0
      rw [h0] at hc
      exact Bool.false_ne_true ((strHasSub_empty m hmne).symm.trans hc)
    have hfind : mimeMap.find? (fun p => strHasSub (strLower ct) p.1) = some (m, e) := by
      apply findUniqAux (strLower ct) m e mimeMap hm hc hu
      intro p hp hpe
      exact mimeMap_functional p hp (m, e) hm (by rw [hpe])
    unfold determineFileExtension mimeLookup
    simp only [hct, if_true, Option.getD_some]
    rw [hfind]
    rfl
  · intro g url fb cto
    unfold determineFileExtension
    cases hmm : (if optTruthy cto then mimeLookup (strLower (cto.getD "")) else none) with
    | some e =>
      right; left
      by_cases ho : optTruthy cto
      · rw [if_pos ho] at hmm
        unfold mimeLookup at hmm
        cases hf : mimeMap.find? (fun p => strHasSub (strLower (cto.getD "")) p.1) with
        | none => rw [hf] at hmm; cases hmm
        | some p =>
          rw [hf] at hmm
          refine ⟨p, List.mem_of_find?_eq_some hf, ?_⟩
          cases hmm
          rfl
      · rw [if_neg ho] at hmm; cases hmm
    | none =>
      dsimp only
      unfold urlExtension
      by_cases hurl : url == ""
      · rw [if_pos hurl]
        left; rfl
      · rw [if_neg hurl]
        cases hg : g url with
        | some u =>
          dsimp only
          by_cases hu : u != ".jpe"
          · rw [if_pos hu]
            right; right; left
            exact ⟨u, rfl, rfl⟩
          · rw [if_neg hu]
            rcases manualExtChecks_cases (strLower url) fb with h | h
            · left; exact h
            · right; right; right; exact h
        | none =>
          dsimp only
          rcases manualExtChecks_cases (strLower url) fb with h | h
          · left; exact h
          · right; right; right; exact h


/-- Two or more non-empty URL lists make `_detect_media_type` answer
`mixed`. -/
theorem detect_mixed_of_two (data : ContentRecord) (h : 1 < cntNonEmpty data) :
    detectMediaType data = some "mixed" := by
  cases hv : data.videoUrls.isEmpty <;> cases hi : data.imageUrls.isEmpty <;>
    cases ha : data.audioUrls.isEmpty <;>
    simp_all [cntNonEmpty, detectMediaType]

/-- Exactly one non-empty list, the video one, yields `video`. -/
theorem detect_single_video (data : ContentRecord) (h : cntNonEmpty data = 1)
    (h2 : data.videoUrls ≠ []) : detectMediaType data = some "video" := by
  cases hv : data.videoUrls.isEmpty <;> cases hi : data.imageUrls.isEmpty <;>
    cases ha : data.audioUrls.isEmpty <;>
    simp_all [cntNonEmpty, detectMediaType]

/-- Exactly one non-empty list, the image one, yields `image`. -/
theorem detect_single_image (data : ContentRecord) (h : cntNonEmpty data = 1)
    (h2 : data.imageUrls ≠ []) : detectMediaType data = some "image" := by
  cases hv : data.videoUrls.isEmpty <;> cases hi : data.imageUrls.isEmpty <;>
    cases ha : data.audioUrls.isEmpty <;>
    simp_all [cntNonEmpty, detectMediaType]

/-- Exactly one non-empty list, the audio one, yields `audio`. -/
theorem detect_single_audio (data : ContentRecord) (h : cntNonEmpty data = 1)
    (h2 : data.audioUrls ≠ []) : detectMediaType data = some "audio" := by
  cases hv : data.videoUrls.isEmpty <;> cases hi : data.imageUrls.isEmpty <;>
    cases ha : data.audioUrls.isEmpty <;>
    simp_all [cntNonEmpty, detectMediaType]

/-- With no URLs, tiktok and douyin fall back to `video`. -/
theorem detect_platform_video (data : ContentRecord) (h : cntNonEmpty data = 0)
    (hp : strLower (data.platform.getD "") = "tiktok"
      ∨ strLower (data.platform.getD "") = "douyin") :
    detectMediaType data = some "video" := by
  rcases hp with hp | hp <;>
    cases hv : data.videoUrls.isEmpty <;> cases hi : data.imageUrls.isEmpty <;>
    cases ha : data.audioUrls.isEmpty <;>
    simp_all [cntNonEmpty, detectMediaType]

/-- With no URLs, xiaohongshu falls back to `mixed`. -/
theorem detect_platform_mixed (data : ContentRecord) (h : cntNonEmpty data = 0)
    (hp : strLower (data.platform.getD "") = "xiaohongshu") :
    detectMediaType data = some "mixed" := by
  cases hv : data.videoUrls.isEmpty <;> cases hi : data.imageUrls.isEmpty <;>
    cases ha : data.audioUrls.isEmpty <;>
    simp_all [cntNonEmpty, detectMediaType]

/-- With no URLs, bilibili with music URLs falls back to `audio`. -/
theorem detect_platform_audio (data : ContentRecord) (h : cntNonEmpty data = 0)
    (hp : strLower (data.platform.getD "") = "bilibili")
    (hm : data.musicUrls ≠ []) : detectMediaType data = some "audio" := by
  cases hv : data.videoUrls.isEmpty <;> cases hi : data.imageUrls.isEmpty <;>
    cases ha : data.audioUrls.isEmpty <;>
    simp_all [cntNonEmpty, detectMediaType]

/-- With no URLs and no matching platform heuristic, detection fails. -/
theorem detect_none_otherwise (data : ContentRecord) (h : cntNonEmpty data = 0)
    (hnin : strLower (data.platform.getD "")
      ∉ (["tiktok", "douyin", "xiaohongshu"] : List String))
    (hbm : strLower (data.platform.getD "") = "bilibili" → data.musicUrls = []) :
    detectMediaType data = none := by
  by_cases hb : strLower (data.platform.getD "") = "bilibili"
  · have hmu := hbm hb
    cases hv : data.videoUrls.isEmpty <;> cases hi : data.imageUrls.isEmpty <;>
      cases ha : data.audioUrls.isEmpty <;>
      simp_all [cntNonEmpty, detectMediaType]
  · cases hv : data.videoUrls.isEmpty <;> cases hi : data.imageUrls.isEmpty <;>
      cases ha : data.audioUrls.isEmpty <;>
      simp_all [cntNonEmpty, detectMediaType]

/-- C7: when `media_type` is absent the router infers it exactly as claimed:
more than one non-empty URL list gives `mixed`; exactly one gives that type;
with none, the platform heuristic yields tiktok/douyin video, xiaohongshu
mixed, and bilibili-with-music audio; otherwise detection fails and
`main_downloader` returns a validation error recorded in `errors[]`. -/
theorem c7_media_type_inference (data : ContentRecord) :
    (1 < cntNonEmpty data → detectMediaType data = some "mixed")
    ∧ (cntNonEmpty data = 1 → data.videoUrls ≠ [] → detectMediaType data = some "video")
    ∧ (cntNonEmpty data = 1 → data.imageUrls ≠ [] → detectMediaType data = some "image")
    ∧ (cntNonEmpty data = 1 → data.audioUrls ≠ [] → detectMediaType data = some "audio")
    ∧ (cntNonEmpty data = 0 →
        (strLower (data.platform.getD "") = "tiktok"
          ∨ strLower (data.platform.getD "") = "douyin") →
        detectMediaType data = some "video")
    ∧ (cntNonEmpty data = 0 → strLower (data.platform.getD "") = "xiaohongshu" →
        detectMediaType data = some "mixed")
    ∧ (cntNonEmpty data = 0 → strLower (data.platform.getD "") = "bilibili" →
        data.musicUrls ≠ [] → detectMediaType data = some "audio")
    ∧ (cntNonEmpty data = 0 →
        strLower (data.platform.getD "") ∉ (["tiktok", "douyin", "xiaohongshu"] : List String) →
        (strLower (data.platform.getD "") = "bilibili" → data.musicUrls = []) →
        detectMediaType data = none
        ∧ ∀ (cfg : Config) (g : String → Option String)
            (net : String → Nat → HttpResponse) (odir : Option String)
            (hasCb : Bool) (mr : Nat) (fs : FS),
            (data.id == "") = false → data.mediaType = none →
            (mainDownloader cfg g net data odir hasCb mr fs).res
              = ⟨false, [],
                  ["Error in main_downloader: Missing required field: media_type and could not determine from data"]⟩) := by
  refine ⟨detect_mixed_of_two data, detect_single_video data, detect_single_image data,
    detect_single_audio data, detect_platform_video data, detect_platform_mixed data,
    detect_platform_audio data, ?_⟩
  intro h0 hnin hbm
  have hdet := detect_none_otherwise data h0 hnin hbm
  refine ⟨hdet, ?_⟩
  intro cfg g net odir hasCb mr fs hid hmt
  have hres : resolveMediaType data = none := by
    unfold resolveMediaType
    rw [hmt, hdet]
  simp [mainDownloader, mainCore, hid, hres]

/-- Retry loop under an always-503 server: every iteration takes the 5xx
retry branch, so the loop issues exactly `fuel` requests and fails, leaving
the filesystem untouched. -/
theorem dmfLoop_all503 (g : String → Option String) (net : String → Nat → HttpResponse)
    (url outputDir baseName : String) (hasCb : Bool)
    (h : ∀ n, (net url n).status = 503) :
    ∀ (fuel retryCount : Nat) (ext : String) (rp : Nat) (fs : FS),
      dmfLoop g net url outputDir baseName hasCb fuel retryCount ext rp fs
        = ⟨none, fs, fuel, []⟩ := by
  intro fuel
  induction fuel with
  | zero => intro rc ext rp fs; rfl
  | succ k ih =>
    intro rc ext rp fs
    simp only [dmfLoop, h rc]
    norm_num
    simp [ih (rc + 1) ext rp fs]

/-- Retry loop when the first response is HTTP 200 and the detected
extension equals the assumed one: a single request writes the temp file and
renames it onto the final path. -/
theorem dmfLoop_first200_same_ext (g : String → Option String)
    (net : String → Nat → HttpResponse) (url outputDir baseName : String)
    (hasCb : Bool) (k rc : Nat) (ext : String) (rp : Nat) (fs : FS)
    (hst : (net url rc).status = 200)
    (hext : determineFileExtension g url ext (net url rc).contentType = ext) :
    dmfLoop g net url outputDir baseName hasCb (k + 1) rc ext rp fs
      = ⟨some (pathJoin outputDir (baseName ++ ext)),
          (fs.setSize (pathJoin outputDir (baseName ++ ext) ++ ".part")
              (rp + (net url rc).body)).rename
            (pathJoin outputDir (baseName ++ ext) ++ ".part")
            (pathJoin outputDir (baseName ++ ext)),
          1, if hasCb then [(100, 100)] else []⟩ := by
  simp only [dmfLoop, hst, hext]
  norm_num

/-- C6 amended: an asset whose server always responds HTTP 503 is attempted
exactly `max_retries` times, the fetch returns null, no final file is
produced and no `.part` temp file is left on disk; the failure is logged but
not recorded in the errors list (see the counterexample). -/
theorem c6_retry_exhaustion_amended (cfg : Config) (g : String → Option String)
    (net : String → Nat → HttpResponse) (data : ContentRecord)
    (url outDir ext : String) (idx : Option Nat) (hasCb : Bool) (mr : Nat)
    (sfx : String) (fs : FS)
    (h503 : ∀ n, (net url n).status = 503)
    (hurl : strStartsWith url "http" = true)
    (hnf : fs.hasFile (pathJoin outDir (mediaBaseName cfg data idx sfx ++ ext)) = false) :
    (downloadMediaFile cfg g net data url outDir ext idx hasCb mr sfx fs).reqs = mr
    ∧ (downloadMediaFile cfg g net data url outDir ext idx hasCb mr sfx fs).path = none
    ∧ (downloadMediaFile cfg g net data url outDir ext idx hasCb mr sfx fs).fs.hasFile
        (pathJoin outDir (mediaBaseName cfg data idx sfx ++ ext)) = false
    ∧ (downloadMediaFile cfg g net data url outDir ext idx hasCb mr sfx fs).fs.hasFile
        (pathJoin outDir (mediaBaseName cfg data idx sfx ++ ext) ++ ".part") = false := by
  unfold downloadMediaFile
  simp only [hurl, Bool.not_true, Bool.false_eq_true, if_false, hnf, Bool.and_false]
  rw [dmfLoop_all503 g net url outDir (mediaBaseName cfg data idx sfx) hasCb h503 mr 0 ext
    (fs.size (pathJoin outDir (mediaBaseName cfg data idx sfx ++ ext) ++ ".part")) fs]
  refine ⟨rfl, rfl, ?_, ?_⟩
  · exact FS.hasFile_remove_false fs _ _ hnf
  · exact FS.hasFile_remove_self fs _

/-- C6 counterexample: for a video record against a server that always
answers HTTP 503, `main_downloader` performs exactly `max_retries = 3`
requests and produces no file — but the failure never appears in `errors[]`,
which stays empty (callers only test the fetch result for truthiness and log
the failure), refuting the errors clause of the claim. -/
theorem c6_counterexample_errors_empty :
    (mainDownloader sampleCfg guessNone netAlways503 recVideoOne none false 3 emptyFS).res.errors = []
    ∧ (mainDownloader sampleCfg guessNone netAlways503 recVideoOne none false 3 emptyFS).reqs = 3
    ∧ (mainDownloader sampleCfg guessNone netAlways503 recVideoOne none false 3 emptyFS).res.files = []
    ∧ (mainDownloader sampleCfg guessNone netAlways503 recVideoOne none false 3 emptyFS).res.success = false := by
  refine ⟨rfl, rfl, rfl, rfl⟩

/-- C6 witness: the amended theorem at a concrete always-503 server with
three retries. -/
theorem c6_retry_exhaustion_amended_witness :
    (downloadMediaFile sampleCfg guessNone netAlways503 recVideoOne "http://h/v" "/out" ".mp4"
        none false 3 "" emptyFS).reqs = 3
    ∧ (downloadMediaFile sampleCfg guessNone netAlways503 recVideoOne "http://h/v" "/out" ".mp4"
        none false 3 "" emptyFS).path = none
    ∧ (downloadMediaFile sampleCfg guessNone netAlways503 recVideoOne "http://h/v" "/out" ".mp4"
        none false 3 "" emptyFS).fs.hasFile
        (pathJoin "/out" (mediaBaseName sampleCfg recVideoOne none "" ++ ".mp4")) = false
    ∧ (downloadMediaFile sampleCfg guessNone netAlways503 recVideoOne "http://h/v" "/out" ".mp4"
        none false 3 "" emptyFS).fs.hasFile
        (pathJoin "/out" (mediaBaseName sampleCfg recVideoOne none "" ++ ".mp4") ++ ".part") = false :=
  c6_retry_exhaustion_amended sampleCfg guessNone netAlways503 recVideoOne "http://h/v" "/out"
    ".mp4" none false 3 "" emptyFS (fun _ => rfl) rfl rfl

/-- C3 amended: with the skip-existing policy enabled, (a) if the computed
final path already exists the fetch returns it with no network access and no
filesystem change; and (b) provided the first response is HTTP 200 and its
content-type-derived extension equals the assumed one (so no mid-transfer
rename occurs), a second identical fetch performs no network I/O and both
calls return the same computed path. -/
theorem c3_skip_existing_amended (cfg : Config) (g : String → Option String)
    (net : String → Nat → HttpResponse) (data : ContentRecord)
    (url outDir ext : String) (idx : Option Nat) (hasCb : Bool) (mr : Nat)
    (sfx : String) (fs : FS)
    (hskip : cfg.skipExisting = true)
    (hurl : strStartsWith url "http" = true)
    (hst : (net url 0).status = 200)
    (hext : determineFileExtension g url ext (net url 0).contentType = ext)
    (hmr : 0 < mr) :
    (fs.hasFile (pathJoin outDir (mediaBaseName cfg data idx sfx ++ ext)) = true →
      downloadMediaFile cfg g net data url outDir ext idx hasCb mr sfx fs
        = ⟨some (pathJoin outDir (mediaBaseName cfg data idx sfx ++ ext)), fs, 0, []⟩)
    ∧ (downloadMediaFile cfg g net data url outDir ext idx hasCb mr sfx
        (downloadMediaFile cfg g net data url outDir ext idx hasCb mr sfx fs).fs).reqs = 0
    ∧ (downloadMediaFile cfg g net data url outDir ext idx hasCb mr sfx
        (downloadMediaFile cfg g net data url outDir ext idx hasCb mr sfx fs).fs).path
        = (downloadMediaFile cfg g net data url outDir ext idx hasCb mr sfx fs).path
    ∧ (downloadMediaFile cfg g net data url outDir ext idx hasCb mr sfx fs).path
        = some (pathJoin outDir (mediaBaseName cfg data idx sfx ++ ext)) := by
  obtain ⟨k, rfl⟩ : ∃ k, mr = k + 1 := ⟨mr - 1, by omega⟩
  by_cases hfs : fs.hasFile (pathJoin outDir (mediaBaseName cfg data idx sfx ++ ext)) = true
  · have h1 : downloadMediaFile cfg g net data url outDir ext idx hasCb (k + 1) sfx fs
        = ⟨some (pathJoin outDir (mediaBaseName cfg data idx sfx ++ ext)), fs, 0, []⟩ := by
      unfold downloadMediaFile
      simp [hurl, hskip, hfs]
    refine ⟨fun _ => h1, ?_, ?_, ?_⟩ <;> rw [h1] <;> rw [h1]
  · have hfs2 : fs.hasFile (pathJoin outDir (mediaBaseName cfg data idx sfx ++ ext)) = false := by
      cases h : fs.hasFile (pathJoin outDir (mediaBaseName cfg data idx sfx ++ ext))
      · rfl
      · exact absurd h hfs
    have h1 : downloadMediaFile cfg g net data url outDir ext idx hasCb (k + 1) sfx fs
        = ⟨some (pathJoin outDir (mediaBaseName cfg data idx sfx ++ ext)),
            ((fs.setSize (pathJoin outDir (mediaBaseName cfg data idx sfx ++ ext) ++ ".part")
                ((fs.size (pathJoin outDir (mediaBaseName cfg data idx sfx ++ ext) ++ ".part"))
                  + (net url 0).body)).rename
              (pathJoin outDir (mediaBaseName cfg data idx sfx ++ ext) ++ ".part")
              (pathJoin outDir (mediaBaseName cfg data idx sfx ++ ext))),
            1, (if hasCb then [(0, 100)] else []) ++ (if hasCb then [(100, 100)] else [])⟩ := by
      unfold downloadMediaFile
      simp only [hurl, Bool.not_true, Bool.false_eq_true, if_false, hfs2, Bool.and_false]
      rw [dmfLoop_first200_same_ext g net url outDir (mediaBaseName cfg data idx sfx) hasCb k 0
        ext (fs.size (pathJoin outDir (mediaBaseName cfg data idx sfx ++ ext) ++ ".part")) fs
        hst hext]
    have hbighas : ((fs.setSize (pathJoin outDir (mediaBaseName cfg data idx sfx ++ ext) ++ ".part")
          ((fs.size (pathJoin outDir (mediaBaseName cfg data idx sfx ++ ext) ++ ".part"))
            + (net url 0).body)).rename
        (pathJoin outDir (mediaBaseName cfg data idx sfx ++ ext) ++ ".part")
        (pathJoin outDir (mediaBaseName cfg data idx sfx ++ ext))).hasFile
        (pathJoin outDir (mediaBaseName cfg data idx sfx ++ ext)) = true := by
      unfold FS.rename
      exact FS.hasFile_setSize_self _ _ _
    have h2 : downloadMediaFile cfg g net data url outDir ext idx hasCb (k + 1) sfx
        (downloadMediaFile cfg g net data url outDir ext idx hasCb (k + 1) sfx fs).fs
        = ⟨some (pathJoin outDir (mediaBaseName cfg data idx sfx ++ ext)),
            (downloadMediaFile cfg g net data url outDir ext idx hasCb (k + 1) sfx fs).fs, 0, []⟩ := by
      rw [h1]
      unfold downloadMediaFile
      simp [hurl, hskip, hbighas]
    refine ⟨fun h => absurd h hfs, ?_, ?_, ?_⟩
    · rw [h2]
    · rw [h2, h1]
    · rw [h1]

/-- C3 counterexample: when the response content type corrects the assumed
extension (`.mp4` to `.webm`), the first fetch stores the file under the
corrected final path, but a second identical fetch recomputes the path with
the assumed extension, finds no file there, and performs network I/O again
(`reqs = 1`, not `0`) — refuting the claim that the second call never touches
the network.  Both calls do return the same path. -/
theorem c3_counterexample_network_on_second_call :
    (downloadMediaFile sampleCfg guessNone netWebmOk recVideoOne "http://h/v" "/out" ".mp4"
        none false 3 "" emptyFS).reqs = 1
    ∧ (downloadMediaFile sampleCfg guessNone netWebmOk recVideoOne "http://h/v" "/out" ".mp4"
        none false 3 ""
        (downloadMediaFile sampleCfg guessNone netWebmOk recVideoOne "http://h/v" "/out" ".mp4"
          none false 3 "" emptyFS).fs).reqs = 1
    ∧ (downloadMediaFile sampleCfg guessNone netWebmOk recVideoOne "http://h/v" "/out" ".mp4"
        none false 3 "" emptyFS).path = some "/out/tiktok_v1.webm"
    ∧ (downloadMediaFile sampleCfg guessNone netWebmOk recVideoOne "http://h/v" "/out" ".mp4"
        none false 3 ""
        (downloadMediaFile sampleCfg guessNone netWebmOk recVideoOne "http://h/v" "/out" ".mp4"
          none false 3 "" emptyFS).fs).path = some "/out/tiktok_v1.webm" := by
  refine ⟨rfl, rfl, rfl, rfl⟩

/-- C3 witness: concrete two-call run discharging the amended theorem
hypotheses at a server answering 200 with no content type. -/
theorem c3_skip_existing_amended_witness :
    (downloadMediaFile sampleCfg guessNone netPlainOk recVideoOne "http://h/v" "/out" ".mp4"
        none false 3 ""
        (downloadMediaFile sampleCfg guessNone netPlainOk recVideoOne "http://h/v" "/out" ".mp4"
          none false 3 "" emptyFS).fs).reqs = 0
    ∧ (downloadMediaFile sampleCfg guessNone netPlainOk recVideoOne "http://h/v" "/out" ".mp4"
        none false 3 ""
        (downloadMediaFile sampleCfg guessNone netPlainOk recVideoOne "http://h/v" "/out" ".mp4"
          none false 3 "" emptyFS).fs).path
        = (downloadMediaFile sampleCfg guessNone netPlainOk recVideoOne "http://h/v" "/out" ".mp4"
          none false 3 "" emptyFS).path
    ∧ (downloadMediaFile sampleCfg guessNone netPlainOk recVideoOne "http://h/v" "/out" ".mp4"
        none false 3 "" emptyFS).path
        = some (pathJoin "/out" (mediaBaseName sampleCfg recVideoOne none "" ++ ".mp4")) := by
  have h := c3_skip_existing_amended sampleCfg guessNone netPlainOk recVideoOne "http://h/v"
    "/out" ".mp4" none false 3 "" emptyFS rfl rfl rfl rfl (by omega)
  exact ⟨h.2.1, h.2.2.1, h.2.2.2⟩

/-- C8 counterexample: a record failing the `id` validation makes
`main_downloader` return through the exception handler with a non-empty error
list and an empty progress log — the callback is never invoked, so no final
`(100, 100)` call happens on this return path, refuting the every-path
clause of the claim. -/
theorem c8_counterexample_no_final_progress :
    (mainDownloader sampleCfg guessNone netJpegOk recNoId none true 3 emptyFS).log = []
    ∧ (mainDownloader sampleCfg guessNone netJpegOk recNoId none true 3 emptyFS).res.errors ≠ [] := by
  refine ⟨rfl, by decide⟩

/-- C8 amended: on every non-exception return path — the record has a
non-empty id and a usable media type (explicit or inferable) — a call with a
progress callback ends its progress log with the final `(100, 100)`
invocation before returning. -/
theorem c8_final_progress_amended (cfg : Config) (g : String → Option String)
    (net : String → Nat → HttpResponse) (data : ContentRecord)
    (odir : Option String) (mr : Nat) (fs : FS)
    (hid : (data.id == "") = false)
    (ht : effectiveMediaType data = some "video" ∨ effectiveMediaType data = some "image"
      ∨ effectiveMediaType data = some "audio" ∨ effectiveMediaType data = some "mixed") :
    (mainDownloader cfg g net data odir true mr fs).log.getLast? = some (100, 100) := by
  have hok : ∃ acc, mainCore cfg g net data odir true mr fs = .ok acc := by
    unfold mainCore
    simp only [hid, Bool.false_eq_true, if_false]
    unfold effectiveMediaType at ht
    cases hm : data.mediaType with
    | some t =>
      rw [hm] at ht
      have hres : resolveMediaType data = some data := by
        unfold resolveMediaType
        rw [hm]
      rw [hres]
      unfold processContent
      dsimp only
      rcases ht with h | h | h | h <;>
        (injection h with h; subst h; rw [hm]; exact ⟨_, rfl⟩)
    | none =>
      rw [hm] at ht
      dsimp only at ht
      rcases ht with h | h | h | h <;>
        · have hres : resolveMediaType data
              = some { data with mediaType := detectMediaType data } := by
            unfold resolveMediaType
            rw [hm, h]
          rw [hres]
          unfold processContent
          dsimp only
          rw [h]
          exact ⟨_, rfl⟩
  obtain ⟨acc, hacc⟩ := hok
  unfold mainDownloader
  rw [hacc]
  simp only [if_true]
  exact getLast_append_single _ _

/-- C8 witness: concrete successful video download whose last progress event
is `(100, 100)`. -/
theorem c8_final_progress_amended_witness :
    (mainDownloader sampleCfg guessNone netPlainOk recVideoOne none true 3 emptyFS).log.getLast?
      = some (100, 100) :=
  c8_final_progress_amended sampleCfg guessNone netPlainOk recVideoOne none 3 emptyFS rfl
    (Or.inl rfl)

/-- C4 witness: a mixed-case content type with parameters resolves to the
mapped `.mp4` even though the URL and fallback point at image extensions. -/
theorem c4_extension_resolver_witness :
    ("video/mp4", ".mp4") ∈ mimeMap
    ∧ strHasSub (strLower "Video/MP4; charset=utf-8") "video/mp4" = true
    ∧ determineFileExtension guessNone "http://u/pic.png" ".jpg"
        (some "Video/MP4; charset=utf-8") = ".mp4" := by
  refine ⟨by decide, by decide, ?_⟩
  apply (c4_extension_resolver).1 guessNone "http://u/pic.png" ".jpg"
    "Video/MP4; charset=utf-8" "video/mp4" ".mp4"
  · decide
  · decide
  · intro p hp hne
    simp only [mimeMap, List.mem_cons, List.not_mem_nil, or_false] at hp
    rcases hp with rfl | rfl | rfl | rfl | rfl | rfl | rfl | rfl | rfl | rfl | rfl | rfl
    all_goals first
      | exact absurd rfl hne
      | decide

/-- C7 witness: one concrete record per inference case, including the
failing platform whose validation error lands in `errors[]`. -/
theorem c7_media_type_inference_witness :
    detectMediaType { id := "a", videoUrls := ["u"], imageUrls := ["v"] } = some "mixed"
    ∧ detectMediaType { id := "b", audioUrls := ["u"] } = some "audio"
    ∧ detectMediaType { id := "c", platform := some "TikTok" } = some "video"
    ∧ detectMediaType { id := "d", platform := some "bilibili", musicUrls := ["u"] } = some "audio"
    ∧ detectMediaType { id := "e", platform := some "other" } = none
    ∧ (mainDownloader sampleCfg guessNone netJpegOk { id := "e", platform := some "other" }
        none false 3 emptyFS).res
      = ⟨false, [],
          ["Error in main_downloader: Missing required field: media_type and could not determine from data"]⟩ := by
  refine ⟨?_, ?_, ?_, ?_, ?_, ?_⟩
  · exact (c7_media_type_inference _).1 (by decide)
  · exact (c7_media_type_inference _).2.2.2.1 (by decide) (by decide)
  · exact (c7_media_type_inference _).2.2.2.2.1 (by decide) (Or.inl (by decide))
  · exact (c7_media_type_inference _).2.2.2.2.2.2.1 (by decide) (by decide) (by decide)
  · exact ((c7_media_type_inference _).2.2.2.2.2.2.2 (by decide) (by decide)
      (fun hb => absurd hb (by decide))).1
  · exact ((c7_media_type_inference _).2.2.2.2.2.2.2 (by decide) (by decide)
      (fun hb => absurd hb (by decide))).2 sampleCfg guessNone netJpegOk none false 3 emptyFS
      (by decide) rfl

/-- C9 witness: the concrete video record keeps its `media_type` and id. -/
theorem c9_record_immutable_witness :
    (mainDownloader sampleCfg guessNone netJpegOk recVideoOne none false 3 emptyFS).record.mediaType
      = some "video"
    ∧ (mainDownloader sampleCfg guessNone netJpegOk recVideoOne none false 3 emptyFS).record.id
      = recVideoOne.id := by
  have h := c9_record_immutable sampleCfg guessNone netJpegOk recVideoOne none false 3 emptyFS
  exact ⟨h.2 "video" rfl, h.1.1⟩
